import Mathlib

/-!
Verification of the finite-element kernel (topology / gcellset / field)
against its natural-language specification.  JS numbers are modelled as
exact rationals (`ℚ`) in the field / shape-function subsystem and as reals
(`ℝ`) in the Jacobian subsystem; JS `undefined`/`NaN` propagation is
modelled with `Option`.
-/

/-- Error kinds of the spec's error-handling design (section 7). -/
inductive JsErr where
  | invalidInput
  | indexOutOfRange
  | dimensionMismatch
  | unsupportedDimension
  | notImplemented
  | invalidTopology
  deriving DecidableEq, Repr

/-- JS array read `l[i]` with an integer index: `undefined` (`none`) when
out of range, mirroring JS semantics. -/
def jsIdx (l : List α) (i : ℤ) : Option α :=
  if h : 0 ≤ i ∧ i.toNat < l.length then some (l.get ⟨i.toNat, h.2⟩) else none

/-- Entry read of a 2d array: `m[i][j]` with a default. -/
def entry2 (m : List (List α)) (i j : ℕ) (d : α) : α :=
  (m.getD i []).getD j d

/-- In-place entry write of a 2d array (the JS `m[i][j] = v`); out-of-range
writes are excluded by the claims' bounds hypotheses. -/
def setEntry (m : List (List α)) (i j : ℕ) (v : α) : List (List α) :=
  m.set i ((m.getD i []).set j v)

-- small list lemmas used throughout

/-! ### Field (src/src/field.js)

The per-node value container (`PointSet`, module `geometry.pointset`) is an
external collaborator whose source is not under src/; per the spec it is a
plain `nfens × dim` value matrix with `getSize`, `getRn`, `get` and
`setAtDir_` accessors, modelled here directly as `List (List ℚ)`. -/

structure FeField where
  values : List (List ℚ)
  prescribed : Option (List (List Bool))
  prescribedValues : Option (List (List ℚ))
  eqnums : Option (List (List ℤ))
  neqns : ℤ
  deriving DecidableEq, Repr

/-- `FeField.prototype.nfens`: number of nodes (`PointSet.getSize`). -/
def FeField.nfens (f : FeField) : ℕ := f.values.length

/-- `FeField.prototype.dim`: components per node (`PointSet.getRn`). -/
def FeField.dim (f : FeField) : ℕ := (f.values.headD []).length

/-- `FeField.prototype.at`: value vector of node `idx`. -/
def FeField.at' (f : FeField) (idx : ℕ) : List ℚ := f.values.getD idx []

/-- `FeField.prototype.isPrescribed`: `false` when no prescribed table. -/
def FeField.isPrescribed (f : FeField) (i j : ℕ) : Bool :=
  match f.prescribed with
  | none => false
  | some p => (p.getD i []).getD j false

/-- `FeField.INVALID_EQUATION_NUM`. -/
def FeField.INVALID_EQUATION_NUM : ℤ := -1

/-- Inner loop of `FeField.prototype._numberEqnums_`: scan the component
indices `js` of one node, assigning the running counter to free components
and the invalid marker to prescribed ones; returns the row and the updated
counter. -/
def numberRowAux (isP : ℕ → Bool) : List ℕ → ℤ → List ℤ × ℤ
  | [], c => ([], c)
  | j :: js, c =>
    if isP j then
      let r := numberRowAux isP js c
      (FeField.INVALID_EQUATION_NUM :: r.1, r.2)
    else
      let r := numberRowAux isP js (c + 1)
      (c :: r.1, r.2)

/-- Outer loop of `FeField.prototype._numberEqnums_`: scan the node indices
`is`, numbering each node's `dim` components with the running counter. -/
def numberAux (isP : ℕ → ℕ → Bool) (dim : ℕ) : List ℕ → ℤ → List (List ℤ) × ℤ
  | [], c => ([], c)
  | i :: is, c =>
    let row := numberRowAux (isP i) (List.range dim) c
    let rest := numberAux isP dim is row.2
    (row.1 :: rest.1, rest.2)

/-- `FeField.prototype._numberEqnums_`: row-major scan over nodes then
components, assigning the next free integer to each non-prescribed
component and the invalid marker otherwise; caches the table and count. -/
def FeField.numberEqnums_ (f : FeField) : FeField :=
  let r := numberAux (fun i j => f.isPrescribed i j) f.dim (List.range f.nfens) 0
  { f with eqnums := some r.1, neqns := r.2 }

/-- Lazy-numbering step shared by `neqns`, `eqnum` and
`scatterSystemVector_`: number on first demand, keep the cache otherwise. -/
def FeField.ensureNumbered (f : FeField) : FeField :=
  if f.eqnums.isNone then f.numberEqnums_ else f

/-- `FeField.prototype.neqns`: triggers numbering if not cached, then returns
the cached count (returned with the updated object, since the read
mutates the cache). -/
def FeField.neqnsRead (f : FeField) : FeField × ℤ :=
  let f' := f.ensureNumbered
  (f', f'.neqns)

/-- `FeField.prototype.eqnum`: triggers numbering if not cached, checks the
bounds, then reads the cached table. -/
def FeField.eqnumRead (f : FeField) (index direction : ℕ) : FeField × Except JsErr ℤ :=
  let f' := f.ensureNumbered
  if index ≥ f'.nfens then (f', Except.error JsErr.indexOutOfRange)
  else if direction ≥ f'.dim then (f', Except.error JsErr.indexOutOfRange)
  else (f', Except.ok (entry2 (f'.eqnums.getD []) index direction FeField.INVALID_EQUATION_NUM))

/-- `FeField.prototype.setPrescribedValue_`: marks `(index, dir)` prescribed,
records the value and overwrites the current value (`PointSet.setAtDir_`,
modelled as an entry write).  `none` models the TypeError raised when the
field has no prescribed table. -/
def FeField.setPrescribedValue_ (f : FeField) (index dir : ℕ) (val : ℚ) : Option FeField :=
  match f.prescribed, f.prescribedValues with
  | some p, some pv =>
    some { f with
            prescribed := some (setEntry p index dir true),
            prescribedValues := some (setEntry pv index dir val),
            values := setEntry f.values index dir val }
  | _, _ => none

/-- One iteration of the write pass of
`FeField.prototype.scatterSystemVector_`: if cell `(i, j)` has a valid
equation number `en`, write `vec[en]` into the value container. -/
def scatterCell (eq : List (List ℤ)) (vec : List ℚ) (i j : ℕ)
    (vs : List (List ℚ)) : List (List ℚ) :=
  let en := entry2 eq i j FeField.INVALID_EQUATION_NUM
  if en ≠ FeField.INVALID_EQUATION_NUM then
    setEntry vs i j (vec.getD en.toNat 0)
  else vs

/-- Inner (component) loop of the write pass. -/
def scatterRow (eq : List (List ℤ)) (vec : List ℚ) (i : ℕ) (js : List ℕ)
    (vs : List (List ℚ)) : List (List ℚ) :=
  js.foldl (fun vs' j => scatterCell eq vec i j vs') vs

/-- Outer (node) loop of the write pass. -/
def scatterOuter (eq : List (List ℤ)) (vec : List ℚ) (js is : List ℕ)
    (vals : List (List ℚ)) : List (List ℚ) :=
  is.foldl (fun vs i => scatterRow eq vec i js vs) vals

/-- Write pass of `FeField.prototype.scatterSystemVector_`: the nested
`for i < nfens, for j < dim` loop over the equation-number table. -/
def scatterLoop (eq : List (List ℤ)) (vec : List ℚ) (nfens dim : ℕ)
    (vals : List (List ℚ)) : List (List ℚ) :=
  scatterOuter eq vec (List.range dim) (List.range nfens) vals

/-- Spec-side row image of the write pass: the same per-cell writes,
performed directly on one node row. -/
def scatterRowVals (eq : List (List ℤ)) (vec : List ℚ) (i : ℕ) (js : List ℕ)
    (r : List ℚ) : List ℚ :=
  js.foldl
    (fun r' j =>
      let en := entry2 eq i j FeField.INVALID_EQUATION_NUM
      if en ≠ FeField.INVALID_EQUATION_NUM then r'.set j (vec.getD en.toNat 0)
      else r')
    r

/-- `FeField.prototype.scatterSystemVector_`: numbers on demand (via the
`neqns()` call), rejects a vector whose length disagrees with `neqns`,
then writes each free DOF's value back into the value container. -/
def FeField.scatterSystemVector_ (f : FeField) (vec : List ℚ) : Except JsErr FeField :=
  let f' := f.ensureNumbered
  if (vec.length : ℤ) ≠ f'.neqns then Except.error JsErr.dimensionMismatch
  else
    Except.ok { f' with
                 values := scatterLoop (f'.eqnums.getD []) vec f'.nfens f'.dim f'.values }

/-! Spec-side characterization of the numbering (used to state C1):
the equation number of a free cell is the number of free cells strictly
before it in row-major order. -/

/-- Number of free components in one node's row. -/
def freeInRow (p : ℕ → Bool) (dim : ℕ) : ℕ :=
  ((List.range dim).filter (fun j => !(p j))).length

/-- Number of free cells strictly before `(i, j)` in row-major order. -/
def freeBefore (isP : ℕ → ℕ → Bool) (dim i j : ℕ) : ℕ :=
  ((List.range i).map (fun i' => freeInRow (isP i') dim)).sum
    + ((List.range j).filter (fun j' => !(isP i j'))).length

/-- Total number of prescribed cells in the `nfens × dim` table. -/
def prescribedCount (isP : ℕ → ℕ → Bool) (nfens dim : ℕ) : ℕ :=
  ((List.range nfens).map
    (fun i => ((List.range dim).filter (fun j => isP i j)).length)).sum

-- characterization of the numbering loops

/-! ### Topology (module `geometry.topology`)

Modelled from the spec: the `geometry.topology` module (the `Topology`
class and the `hypercube` construction) is code of this repository that is
not under src/; only its callers (`gcellset`, `mesh`) are.  The model
follows the spec's Topology contract: top-dimension cells are the input
connectivity, lower-dimension cells are derived by exhaustive sub-face
enumeration deduplicated by unordered point-index set, and the boundary
keeps the sub-faces incident to exactly one top cell. -/

/-- Modelled from the spec: two sub-faces are identical iff their
point-index sets are equal, independent of traversal order. -/
def sameCell (a b : List ℕ) : Bool :=
  a.all (fun p => b.contains p) && b.all (fun p => a.contains p)

/-- Modelled from the spec: deduplicate cells by unordered point-index
set, keeping first-seen order. -/
def dedupCells (cells : List (List ℕ)) : List (List ℕ) :=
  cells.foldl (fun acc c => if acc.any (fun d => sameCell c d) then acc else acc ++ [c]) []

/-- The fixed per-shape face pattern of a quad: its four sides. -/
def quadEdges (q : List ℕ) : List (List ℕ) :=
  [[q.getD 0 0, q.getD 1 0], [q.getD 1 0, q.getD 2 0],
   [q.getD 2 0, q.getD 3 0], [q.getD 3 0, q.getD 0 0]]

/-- The fixed per-shape face pattern of an edge: its two endpoints. -/
def edgeEnds (e : List ℕ) : List (List ℕ) :=
  [[e.getD 0 0], [e.getD 1 0]]

/-- Sub-faces of a cell of the given dimension. -/
def facesOfCell (dim : ℕ) (c : List ℕ) : List (List ℕ) :=
  match dim with
  | 2 => quadEdges c
  | 1 => edgeEnds c
  | _ => []

/-- Modelled from the spec: dimension-0 cells are singleton references to
the distinct indices referenced anywhere, in first-seen order. -/
def vertexCells (conn : List (List ℕ)) : List (List ℕ) :=
  (conn.flatten.foldl (fun acc p => if acc.contains p then acc else acc ++ [p]) []).map
    (fun p => [p])

/-- Modelled from the spec: a Topology holds, for each dimension `0..D`,
an ordered sequence of cells. -/
structure FeTopology where
  dim : ℕ
  cells : List (List (List ℕ))
  deriving Repr

/-- `Topology.prototype.getCellsInDim`. -/
def FeTopology.getCellsInDim (t : FeTopology) (k : ℕ) : List (List ℕ) :=
  t.cells.getD k []

/-- `Topology.prototype.getNumOfCellsInDim`. -/
def FeTopology.getNumOfCellsInDim (t : FeTopology) (k : ℕ) : ℕ :=
  (t.getCellsInDim k).length

/-- `Topology.prototype.getCellSizeInDim`: row width at dimension `k`. -/
def FeTopology.getCellSizeInDim (t : FeTopology) (k : ℕ) : ℕ :=
  ((t.getCellsInDim k).headD []).length

/-- `Topology.prototype.getDim`. -/
def FeTopology.getDim (t : FeTopology) : ℕ := t.dim

/-- `Topology.prototype.getMaxCells`: the cells at the top dimension. -/
def FeTopology.getMaxCells (t : FeTopology) : List (List ℕ) :=
  t.getCellsInDim t.dim

/-- Modelled from the spec: `hypercube(conn, dim)` builds the Topology of a
line (`dim = 1`) or quad (`dim = 2`) connectivity: top cells are the input
in order, lower-dimension cells are derived by sub-face enumeration with
first-seen deduplication. -/
def hypercube (conn : List (List ℕ)) (dim : ℕ) : FeTopology :=
  match dim with
  | 1 => ⟨1, [vertexCells conn, conn]⟩
  | 2 => ⟨2, [vertexCells conn, dedupCells (conn.map quadEdges).flatten, conn]⟩
  | d => ⟨d, []⟩

/-- Modelled from the spec: `Topology.prototype.boundary` returns a new
Topology of dimension `D-1` containing exactly those `(D-1)`-cells that
are a face of exactly one `D`-cell. -/
def FeTopology.boundary (t : FeTopology) : FeTopology :=
  let top := t.getCellsInDim t.dim
  let faces := t.getCellsInDim (t.dim - 1)
  let bcells := faces.filter (fun e =>
    top.countP (fun c => (facesOfCell t.dim c).any (fun e' => sameCell e e')) = 1)
  ⟨t.dim - 1, [vertexCells bcells, bcells]⟩

/-! ### GCellSet hierarchy (src/unnamed/part_000)

The numeric layer (`core.numeric`) and `feutils.skewmat` are not under
src/; they are modelled from the spec's external-interface description
(section 6): transpose, matrix multiply, dot, Euclidean norm, and the
skew-symmetric cross-product matrix. -/

/-- `GCellSet~InitOption.otherDimension`: a thickness/area number or a
function of connectivity, basis values and coordinates. -/
inductive OtherDim where
  | num (v : ℝ)
  | fn (f : List ℕ → List (List ℝ) → List (List ℝ) → ℝ)

/-- `GCellSet.prototype.otherDimension`: evaluate the stored number or
function. -/
def evalOtherDim (od : OtherDim) (conn : List ℕ) (N x : List (List ℝ)) : ℝ :=
  match od with
  | .num v => v
  | .fn f => f conn N x

/-- Dot product of the spec-modelled numeric layer. -/
def dotL (u v : List ℝ) : ℝ := (List.zipWith (fun a b => a * b) u v).sum

/-- Column `j` (0-based) of a matrix, used by transpose and multiply. -/
def colOf (m : List (List ℝ)) (j : ℕ) : List ℝ := m.map (fun r => r.getD j 0)

/-- Matrix transpose of the spec-modelled numeric layer. -/
def transposeM (m : List (List ℝ)) : List (List ℝ) :=
  (List.range (m.headD []).length).map (fun j => colOf m j)

/-- Matrix product of the spec-modelled numeric layer. -/
def mulM (a b : List (List ℝ)) : List (List ℝ) :=
  a.map (fun r => (List.range (b.headD []).length).map (fun j => dotL r (colOf b j)))

/-- Matrix-vector product (`numeric.dot` on a matrix and a vector). -/
def dotMV (m : List (List ℝ)) (v : List ℝ) : List ℝ := m.map (fun r => dotL r v)

/-- Euclidean norm of the spec-modelled numeric layer. -/
noncomputable def normE (v : List ℝ) : ℝ :=
  Real.sqrt ((v.map (fun a => a * a)).sum)

/-- Modelled from the spec: `feutils.skewmat` of a 3-vector, the
skew-symmetric matrix whose product with `w` is the cross product `v × w`. -/
def skewmat (v : List ℝ) : List (List ℝ) :=
  [[0, -(v.getD 2 0), v.getD 1 0],
   [v.getD 2 0, 0, -(v.getD 0 0)],
   [-(v.getD 1 0), v.getD 0 0, 0]]

/-- Modelled from the spec: `numeric.nthColumn(m, k)` selects the `k`-th
tangent column, 1-based (its two call sites pass 1 and 2 for the two
tangent columns of a matrix with 2 columns). -/
def nthColumn (m : List (List ℝ)) (k : ℕ) : List ℝ :=
  m.map (fun r => r.getD (k - 1) 0)

/-- State an abstract manifold cell set contributes to its Jacobians:
the `axisSymm` flag and the `otherDimension` payload. -/
structure ManifoldState where
  axisSymm : Bool
  otherDimension : OtherDim

/-- `Manifold1GCellSet.prototype.jacobianCurve`: Euclidean norm of the
single tangent column `transpose(J)[0]`. -/
noncomputable def jacobianCurveM1 (s : ManifoldState) (conn : List ℕ)
    (N J x : List (List ℝ)) : ℝ :=
  normE ((transposeM J).getD 0 [])

/-- `Manifold1GCellSet.prototype.jacobianSurface`: curve Jacobian times
`2π·radius` (first spatial coordinate of `mul(transpose(N), x)[0]`) when
axisymmetric, otherwise times the other dimension. -/
noncomputable def jacobianSurfaceM1 (s : ManifoldState) (conn : List ℕ)
    (N J x : List (List ℝ)) : ℝ :=
  if s.axisSymm then
    jacobianCurveM1 s conn N J x * 2 * Real.pi
      * (((mulM (transposeM N) x).getD 0 []).getD 0 0)
  else
    jacobianCurveM1 s conn N J x * evalOtherDim s.otherDimension conn N x

/-- `Manifold1GCellSet.prototype.jacobianVolumn`. -/
noncomputable def jacobianVolumnM1 (s : ManifoldState) (conn : List ℕ)
    (N J x : List (List ℝ)) : ℝ :=
  if s.axisSymm then
    jacobianCurveM1 s conn N J x * 2 * Real.pi
      * (((mulM (transposeM N) x).getD 0 []).getD 0 0)
      * evalOtherDim s.otherDimension conn N x
  else
    jacobianCurveM1 s conn N J x * evalOtherDim s.otherDimension conn N x

/-- `Manifold1GCellSet.prototype.jacobianInDim`: dispatch on the requested
integration dimension; the JS `switch` compares the number `dim` against
3, 2, 1 and throws on anything else. -/
noncomputable def jacobianInDimM1 (s : ManifoldState) (conn : List ℕ)
    (N J x : List (List ℝ)) (dim : ℤ) : Except JsErr ℝ :=
  if dim = 3 then Except.ok (jacobianVolumnM1 s conn N J x)
  else if dim = 2 then Except.ok (jacobianSurfaceM1 s conn N J x)
  else if dim = 1 then Except.ok (jacobianCurveM1 s conn N J x)
  else Except.error JsErr.unsupportedDimension

/-- `Manifold2GCellSet.prototype.jacobianSurface`: with `[sdim, ntan] =
size(J)`, the 2×2 determinant when `sdim = ntan`, otherwise the norm of
`skewmat(nthColumn(J,1)) · nthColumn(J,2)`; not implemented when the
tangent count is not 2. -/
noncomputable def jacobianSurfaceM2 (s : ManifoldState) (conn : List ℕ)
    (N J x : List (List ℝ)) : Except JsErr ℝ :=
  let sdim := J.length
  let ntan := (J.headD []).length
  if ntan = 2 then
    if sdim = ntan then
      Except.ok (entry2 J 0 0 0 * entry2 J 1 1 0 - entry2 J 1 0 0 * entry2 J 0 1 0)
    else
      Except.ok (normE (dotMV (skewmat (nthColumn J 1)) (nthColumn J 2)))
  else Except.error JsErr.notImplemented

/-- `Manifold2GCellSet.prototype.jacobianVolumn`: surface Jacobian times
`2π·radius` when axisymmetric (the source reads `dot(transpose(N), x)` and
uses its leading entry, the radial spatial coordinate per the spec),
otherwise times the other dimension. -/
noncomputable def jacobianVolumnM2 (s : ManifoldState) (conn : List ℕ)
    (N J x : List (List ℝ)) : Except JsErr ℝ := do
  let sj ← jacobianSurfaceM2 s conn N J x
  if s.axisSymm then
    pure (sj * 2 * Real.pi * (((mulM (transposeM N) x).getD 0 []).getD 0 0))
  else
    pure (sj * evalOtherDim s.otherDimension conn N x)

/-- `Manifold2GCellSet.prototype.jacobianInDim`: dispatch on `dim ∈ {3, 2}`
only; anything else (including 1) throws. -/
noncomputable def jacobianInDimM2 (s : ManifoldState) (conn : List ℕ)
    (N J x : List (List ℝ)) (dim : ℤ) : Except JsErr ℝ :=
  if dim = 3 then jacobianVolumnM2 s conn N J x
  else if dim = 2 then jacobianSurfaceM2 s conn N J x
  else Except.error JsErr.unsupportedDimension

/-- Spec-side 2×2 determinant (for C7). -/
def det2 (J : List (List ℝ)) : ℝ :=
  entry2 J 0 0 0 * entry2 J 1 1 0 - entry2 J 0 1 0 * entry2 J 1 0 0

/-- Spec-side tangent column `j` (0-based) of the Jacobian matrix. -/
def tangentCol (J : List (List ℝ)) (j : ℕ) : List ℝ :=
  J.map (fun r => r.getD j 0)

/-- Spec-side cross product of two 3-vectors. -/
def cross3 (u v : List ℝ) : List ℝ :=
  [u.getD 1 0 * v.getD 2 0 - u.getD 2 0 * v.getD 1 0,
   u.getD 2 0 * v.getD 0 0 - u.getD 0 0 * v.getD 2 0,
   u.getD 0 0 * v.getD 1 0 - u.getD 1 0 * v.getD 0 0]

/-- Concrete `L2` cell set: topology plus the base-class state. -/
structure L2Set where
  topology : FeTopology
  axisSymm : Bool
  otherDimension : OtherDim

/-- Concrete `Q4` cell set: topology plus the base-class state. -/
structure Q4Set where
  topology : FeTopology
  axisSymm : Bool
  otherDimension : OtherDim

/-- `GCellSet.prototype.conn` for `L2`. -/
def L2Set.conn (s : L2Set) : List (List ℕ) := s.topology.getMaxCells

/-- `GCellSet.prototype.conn` for `Q4`. -/
def Q4Set.conn (s : Q4Set) : List (List ℕ) := s.topology.getMaxCells

/-- `L2.prototype.type`. -/
def L2Set.type (s : L2Set) : String := "L2"

/-- `Q4.prototype.type`. -/
def Q4Set.type (s : Q4Set) : String := "Q4"

/-- Consistency test the spec-modelled `hypercube` applies to an incoming
connectivity: every row present (not `undefined`) and all rows of one
length (indices are `ℕ`, so no negative entries exist). -/
def connConsistent (conn : List (Option (List ℕ))) : Bool :=
  conn.all (fun r => r.isSome) &&
    (match conn with
     | [] => true
     | r :: rs => rs.all (fun q => (q.getD []).length = (r.getD []).length))

/-- `L2` constructor chain (`L2` → `Manifold1GCellSet` → `GCellSet`):
builds the topology via `hypercube(conn, 1)`; the spec-modelled `hypercube`
rejects a malformed connectivity with `InvalidTopologyError`, and the base
class rejects a topology whose top cell size differs from `cellSize() = 2`
(its plain `Error` is the spec's `DimensionMismatchError`).  Absent
options default to `axisSymm = false`, `otherDimension = 1.0`. -/
def mkL2 (conn : List (Option (List ℕ))) (axisSymm : Option Bool)
    (otherDimension : Option OtherDim) : Except JsErr L2Set :=
  if connConsistent conn then
    let c := conn.map (fun r => r.getD [])
    let topo := hypercube c 1
    if topo.getCellSizeInDim topo.getDim = 2 && topo.getDim = 1 then
      Except.ok { topology := topo,
                  axisSymm := axisSymm.getD false,
                  otherDimension := otherDimension.getD (OtherDim.num 1) }
    else Except.error JsErr.dimensionMismatch
  else Except.error JsErr.invalidTopology

/-- `Q4` constructor chain (`Q4` → `Manifold2GCellSet` → `GCellSet`):
builds the topology via `hypercube(conn, 2)`; validation as for `mkL2`
with `cellSize() = 4`. -/
def mkQ4 (conn : List (Option (List ℕ))) (axisSymm : Option Bool)
    (otherDimension : Option OtherDim) : Except JsErr Q4Set :=
  if connConsistent conn then
    let c := conn.map (fun r => r.getD [])
    let topo := hypercube c 2
    if topo.getCellSizeInDim topo.getDim = 4 && topo.getDim = 2 then
      Except.ok { topology := topo,
                  axisSymm := axisSymm.getD false,
                  otherDimension := otherDimension.getD (OtherDim.num 1) }
    else Except.error JsErr.dimensionMismatch
  else Except.error JsErr.invalidTopology

/-- The `subset(conn, indices)` helper: pushes `conn[idx]` for each index,
with no range check — an out-of-range index contributes the JS
`undefined` (`none`). -/
def subsetConn (conn : List (List ℕ)) (indices : List ℤ) : List (Option (List ℕ)) :=
  indices.map (fun idx => jsIdx conn idx)

/-- `L2.prototype.subset`: rebuilds an `L2` from the selected rows,
passing along `axisSymm` and `_otherDimension`. -/
def L2Set.subset (s : L2Set) (indices : List ℤ) : Except JsErr L2Set :=
  mkL2 (subsetConn s.conn indices) (some s.axisSymm) (some s.otherDimension)

/-- `Q4.prototype.subset`: rebuilds a `Q4` from the selected rows,
passing along `axisSymm` and `_otherDimension`. -/
def Q4Set.subset (s : Q4Set) (indices : List ℤ) : Except JsErr Q4Set :=
  mkQ4 (subsetConn s.conn indices) (some s.axisSymm) (some s.otherDimension)

/-- `GCellSet.prototype.boundary` for `Q4`: builds the boundary Topology
and wraps it in the boundary type given by
`Q4.prototype.boundaryGCellSetConstructor`, namely `L2` (modelled from the
spec: the wrapping constructor receives the boundary topology and no
further options, so the base-class defaults apply). -/
def Q4Set.boundary (s : Q4Set) : L2Set :=
  let bt := s.topology.boundary
  { topology := hypercube (bt.getCellsInDim 1) 1,
    axisSymm := false,
    otherDimension := OtherDim.num 1 }

/-- `GCellSet.prototype.count` (number of top-dimension cells). -/
def Q4Set.count (s : Q4Set) : ℕ :=
  s.topology.getNumOfCellsInDim s.topology.getDim

/-- `GCellSet.prototype.count` for `L2`. -/
def L2Set.count (s : L2Set) : ℕ :=
  s.topology.getNumOfCellsInDim s.topology.getDim

/-- JS addition where `none` models `NaN` (or `undefined` entering
arithmetic, which yields `NaN`). -/
def jadd : Option ℚ → Option ℚ → Option ℚ
  | some a, some b => some (a + b)
  | _, _ => none

/-- JS subtraction with `NaN` propagation. -/
def jsub : Option ℚ → Option ℚ → Option ℚ
  | some a, some b => some (a - b)
  | _, _ => none

/-- JS multiplication with `NaN` propagation. -/
def jmul : Option ℚ → Option ℚ → Option ℚ
  | some a, some b => some (a * b)
  | _, _ => none

/-- JS negation with `NaN` propagation. -/
def jneg : Option ℚ → Option ℚ
  | some a => some (-a)
  | none => none

/-- `L2.prototype.bfun` behind its `vectorOfDimension(1)` input contract:
`[[0.5(1-x)], [0.5(1+x)]]`, or `InvalidInputError` on a wrong-length
vector. -/
def L2bfun (paramCoords : List ℚ) : Except JsErr (List (List ℚ)) :=
  if paramCoords.length = 1 then
    let x := paramCoords.getD 0 0
    Except.ok [[1/2 * (1 - x)], [1/2 * (1 + x)]]
  else Except.error JsErr.invalidInput

/-- `L2.prototype.bfundpar` behind the same input contract. -/
def L2bfundpar (paramCoords : List ℚ) : Except JsErr (List (List ℚ)) :=
  if paramCoords.length = 1 then
    Except.ok [[-(1/2)], [1/2]]
  else Except.error JsErr.invalidInput

/-- `Q4.prototype.bfun`: no input contract — it reads `paramCoords[0]` and
`paramCoords[1]` (JS `undefined`, hence `NaN` entries, when absent) and
always returns a 4×1 matrix; the `Except` codomain only records that,
unlike `L2`, the method has no failure outcome. -/
def Q4bfun (paramCoords : List ℚ) : Except JsErr (List (List (Option ℚ))) :=
  let one_minus_xi := jsub (some 1) (paramCoords.get? 0)
  let one_plus_xi := jadd (some 1) (paramCoords.get? 0)
  let one_minus_eta := jsub (some 1) (paramCoords.get? 1)
  let one_plus_eta := jadd (some 1) (paramCoords.get? 1)
  Except.ok
    [[jmul (jmul (some (1/4)) one_minus_xi) one_minus_eta],
     [jmul (jmul (some (1/4)) one_plus_xi) one_minus_eta],
     [jmul (jmul (some (1/4)) one_plus_xi) one_plus_eta],
     [jmul (jmul (some (1/4)) one_minus_xi) one_plus_eta]]

/-- `Q4.prototype.bfundpar`: no input contract; always returns the 4×2
derivative matrix. -/
def Q4bfundpar (paramCoords : List ℚ) : Except JsErr (List (List (Option ℚ))) :=
  let xi := paramCoords.get? 0
  let eta := paramCoords.get? 1
  Except.ok
    [[jmul (jneg (jsub (some 1) eta)) (some (1/4)),
      jmul (jneg (jsub (some 1) xi)) (some (1/4))],
     [jmul (jsub (some 1) eta) (some (1/4)),
      jmul (jneg (jadd (some 1) xi)) (some (1/4))],
     [jmul (jadd (some 1) eta) (some (1/4)),
      jmul (jadd (some 1) xi) (some (1/4))],
     [jmul (jneg (jadd (some 1) eta)) (some (1/4)),
      jmul (jsub (some 1) xi) (some (1/4))]]

/-- Sum of all entries of a rational matrix. -/
def sumMatQ (m : List (List ℚ)) : ℚ := (m.map List.sum).sum

/-- Sum of all entries of a JS-number matrix, with `NaN` propagation. -/
def sumMatJs (m : List (List (Option ℚ))) : Option ℚ :=
  m.foldl (fun acc row => row.foldl jadd acc) (some 0)

/-! ### Concrete inputs used by witnesses and counterexamples -/

/-- A 3-node, 2-component field with three prescribed components and an
uncomputed numbering cache. -/
def demoField : FeField where
  values := [[0, 0], [10, 20], [0, 7]]
  prescribed := some [[false, true], [false, false], [true, false]]
  prescribedValues := some [[0, 5], [0, 0], [9, 0]]
  eqnums := none
  neqns := -1

/-- A 1-node, 2-component unconstrained field (for the cache-staleness
counterexample). -/
def tinyField : FeField where
  values := [[0, 0]]
  prescribed := some [[false, false]]
  prescribedValues := some [[0, 0]]
  eqnums := none
  neqns := -1

/-- The field `tinyField` after numbering and then prescribing
`(0, 0) := 5`: the mutated tables next to the untouched (stale) numbering
cache. -/
def tinyFieldMut : FeField where
  values := [[5, 0]]
  prescribed := some [[true, false]]
  prescribedValues := some [[5, 0]]
  eqnums := some [[0, 1]]
  neqns := 2

/-- A 3-cell `Q4` set (the spec's `subset([1])` example shape), with
non-default flags so that preservation is observable. -/
def demoQ4 : Q4Set where
  topology := hypercube [[0, 1, 2, 3], [1, 4, 5, 2], [4, 6, 7, 5]] 2
  axisSymm := true
  otherDimension := OtherDim.num 1

/-- A plain manifold state (no axisymmetry, unit other dimension). -/
def demoManifold : ManifoldState where
  axisSymm := false
  otherDimension := OtherDim.num 1

/-- A 2-cell `L2` set with non-default flags. -/
def demoL2 : L2Set where
  topology := hypercube [[0, 1], [1, 2]] 1
  axisSymm := true
  otherDimension := OtherDim.num 1

/-- The unit single-quad `Q4` set of the boundary example. -/
def unitQ4 : Q4Set where
  topology := hypercube [[0, 1, 2, 3]] 2
  axisSymm := false
  otherDimension := OtherDim.num 1

theorem getD_set_self (l : List α) (i : ℕ) (a d : α) (h : i < l.length) :
    (l.set i a).getD i d = a := by
  induction l generalizing i with
  | nil => simp at h
  | cons x xs ih =>
    cases i with
    | zero => simp [List.set, List.getD]
    | succ n =>
      simp only [List.set, List.getD, List.getElem?_cons_succ] at *
      exact ih n (by simpa using h)

theorem getD_set_other (l : List α) (i j : ℕ) (a d : α) (h : i ≠ j) :
    (l.set i a).getD j d = l.getD j d := by
  induction l generalizing i j with
  | nil => simp [List.set]
  | cons x xs ih =>
    cases i with
    | zero =>
      cases j with
      | zero => exact absurd rfl h
      | succ m => simp [List.set, List.getD]
    | succ n =>
      cases j with
      | zero => simp [List.set, List.getD]
      | succ m =>
        simp only [List.set, List.getD, List.getElem?_cons_succ]
        exact ih n m (fun hnm => h (by rw [hnm]))

theorem numberRowAux_snd (isP : ℕ → Bool) (js : List ℕ) (c : ℤ) :
    (numberRowAux isP js c).2 = c + ((js.filter (fun j => !(isP j))).length : ℤ) := by
  induction js generalizing c with
  | nil => simp [numberRowAux]
  | cons j js ih =>
    by_cases h : isP j
    · simp [numberRowAux, h, ih]
    · simp [numberRowAux, h, ih]
      ring

theorem numberRowAux_length (isP : ℕ → Bool) (js : List ℕ) (c : ℤ) :
    (numberRowAux isP js c).1.length = js.length := by
  induction js generalizing c with
  | nil => simp [numberRowAux]
  | cons j js ih =>
    by_cases h : isP j <;> simp [numberRowAux, h, ih]

theorem numberRowAux_getD (isP : ℕ → Bool) (js : List ℕ) (c : ℤ) (k : ℕ)
    (hk : k < js.length) :
    (numberRowAux isP js c).1.getD k FeField.INVALID_EQUATION_NUM =
      if isP (js.getD k 0) then FeField.INVALID_EQUATION_NUM
      else c + (((js.take k).filter (fun j => !(isP j))).length : ℤ) := by
  induction js generalizing c k with
  | nil => simp at hk
  | cons j js ih =>
    cases k with
    | zero =>
      by_cases h : isP j <;> simp [numberRowAux, h]
    | succ n =>
      have hn : n < js.length := by simpa using hk
      simp only [numberRowAux]
      by_cases h : isP j
      · rw [if_pos h]
        simp only [List.getD_cons_succ]
        rw [ih c n hn]
        simp [List.take_succ_cons, List.filter_cons, h]
      · rw [if_neg h]
        simp only [List.getD_cons_succ]
        rw [ih (c + 1) n hn]
        have hb : (!isP j) = true := by simp [h]
        simp only [List.take_succ_cons, List.filter_cons, hb, if_pos,
          List.length_cons]
        by_cases h2 : isP (js.getD n 0) <;> simp [h2] <;> ring_nf

theorem numberAux_snd (isP : ℕ → ℕ → Bool) (dim : ℕ) (is : List ℕ) (c : ℤ) :
    (numberAux isP dim is c).2 =
      c + ((is.map (fun i => freeInRow (isP i) dim)).sum : ℤ) := by
  induction is generalizing c with
  | nil => simp [numberAux]
  | cons i is ih =>
    simp only [numberAux, ih, numberRowAux_snd, List.map_cons, List.sum_cons]
    have : ((List.range dim).filter (fun j => !(isP i j))).length
        = freeInRow (isP i) dim := rfl
    rw [this]
    push_cast
    ring

theorem numberAux_length (isP : ℕ → ℕ → Bool) (dim : ℕ) (is : List ℕ) (c : ℤ) :
    (numberAux isP dim is c).1.length = is.length := by
  induction is generalizing c with
  | nil => simp [numberAux]
  | cons i is ih => simp [numberAux, ih]

theorem numberAux_getD (isP : ℕ → ℕ → Bool) (dim : ℕ) (is : List ℕ) (c : ℤ) (k : ℕ)
    (hk : k < is.length) :
    (numberAux isP dim is c).1.getD k [] =
      (numberRowAux (isP (is.getD k 0)) (List.range dim)
        (c + (((is.take k).map (fun i => freeInRow (isP i) dim)).sum : ℤ))).1 := by
  induction is generalizing c k with
  | nil => simp at hk
  | cons i is ih =>
    cases k with
    | zero => simp [numberAux, List.getD]
    | succ n =>
      have hn : n < is.length := by simpa using hk
      simp only [numberAux, List.getD_cons_succ]
      rw [ih (numberRowAux (isP i) (List.range dim) c).2 n hn, numberRowAux_snd]
      have : ((List.range dim).filter (fun j => !(isP i j))).length
          = freeInRow (isP i) dim := rfl
      rw [this]
      simp only [List.take_succ_cons, List.map_cons, List.sum_cons]
      push_cast
      ring_nf

theorem length_filter_not_add (p : α → Bool) (l : List α) :
    (l.filter (fun x => !(p x))).length + (l.filter p).length = l.length := by
  induction l with
  | nil => simp
  | cons x xs ih =>
    by_cases h : p x <;> simp [List.filter_cons, h] <;> omega

theorem sum_map_add_nat (l : List α) (f g : α → ℕ) :
    (l.map (fun x => f x + g x)).sum = (l.map f).sum + (l.map g).sum := by
  induction l with
  | nil => simp
  | cons x xs ih => simp [ih]; omega

/-- Entry characterization of the numbering pass: the equation number of a
free cell is the number of free cells strictly before it in row-major
order, and prescribed cells carry the invalid marker. -/
theorem numberAux_entry (isP : ℕ → ℕ → Bool) (dim nfens i j : ℕ)
    (hi : i < nfens) (hj : j < dim) :
    entry2 (numberAux isP dim (List.range nfens) 0).1 i j FeField.INVALID_EQUATION_NUM =
      if isP i j then FeField.INVALID_EQUATION_NUM
      else (freeBefore isP dim i j : ℤ) := by
  have hrow := numberAux_getD isP dim (List.range nfens) 0 i (by simpa using hi)
  have hgetr : (List.range nfens).getD i 0 = i := by
    simp [List.getD, List.getElem?_range, hi]
  have htake : (List.range nfens).take i = List.range i := by
    rw [List.take_range]
    simp [Nat.min_eq_left (Nat.le_of_lt hi)]
  rw [hgetr, htake] at hrow
  unfold entry2
  rw [hrow]
  have hcell := numberRowAux_getD (isP i) (List.range dim)
    (0 + (((List.range i).map (fun i' => freeInRow (isP i') dim)).sum : ℤ)) j
    (by simpa using hj)
  have hgetc : (List.range dim).getD j 0 = j := by
    simp [List.getD, List.getElem?_range, hj]
  have htakec : (List.range dim).take j = List.range j := by
    rw [List.take_range]
    simp [Nat.min_eq_left (Nat.le_of_lt hj)]
  rw [hgetc, htakec] at hcell
  rw [hcell]
  by_cases h : isP i j
  · simp [h]
  · simp only [h, if_false]
    unfold freeBefore
    push_cast
    ring

/-- Count characterization of the numbering pass:
the final counter equals `nfens * dim` minus the number of prescribed
cells. -/
theorem numberAux_total (isP : ℕ → ℕ → Bool) (dim nfens : ℕ) :
    (numberAux isP dim (List.range nfens) 0).2 =
      (nfens * dim : ℤ) - (prescribedCount isP nfens dim : ℤ) := by
  rw [numberAux_snd]
  have hsplit : ((List.range nfens).map (fun i => freeInRow (isP i) dim)).sum
        + prescribedCount isP nfens dim
      = nfens * dim := by
    unfold prescribedCount
    rw [← sum_map_add_nat]
    have : ((List.range nfens).map
        (fun i => freeInRow (isP i) dim
          + ((List.range dim).filter (fun j => isP i j)).length))
        = (List.range nfens).map (fun _ => dim) := by
      apply List.map_congr_left
      intro i _
      unfold freeInRow
      exact length_filter_not_add (fun j => isP i j) (List.range dim) |>.trans
        (by simp)
    rw [this]
    simp [List.map_const', mul_comm]
  omega

/-- C1: `_numberEqnums_` assigns, in row-major (node-major, then
component) order, the dense integers `0..neqns-1` to exactly the
non-prescribed `(node, component)` entries — the entry of a free cell is
the count of free cells strictly before it — while every prescribed entry
carries the invalid marker; `neqns` equals `nfens*dim` minus the number of
prescribed entries; and the numbering is a function of the prescribed
table alone, so two fields with identical prescribed tables get identical
`eqnum` tables. -/
theorem fieldNumbering_dense (f g : FeField) (i j : ℕ)
    (hi : i < f.nfens) (hj : j < f.dim)
    (hn : g.nfens = f.nfens) (hd : g.dim = f.dim)
    (hp : ∀ a b, g.isPrescribed a b = f.isPrescribed a b) :
    ∃ E : List (List ℤ),
      f.numberEqnums_.eqnums = some E ∧
      entry2 E i j FeField.INVALID_EQUATION_NUM =
        (if f.isPrescribed i j then FeField.INVALID_EQUATION_NUM
         else (freeBefore (fun a b => f.isPrescribed a b) f.dim i j : ℤ)) ∧
      f.numberEqnums_.neqns =
        (f.nfens * f.dim : ℤ)
          - (prescribedCount (fun a b => f.isPrescribed a b) f.nfens f.dim : ℤ) ∧
      g.numberEqnums_.eqnums = f.numberEqnums_.eqnums ∧
      g.numberEqnums_.neqns = f.numberEqnums_.neqns := by
  have hfun : (fun a b => g.isPrescribed a b) = (fun a b => f.isPrescribed a b) := by
    funext a b
    exact hp a b
  refine ⟨(numberAux (fun a b => f.isPrescribed a b) f.dim (List.range f.nfens) 0).1,
    rfl, ?_, ?_, ?_, ?_⟩
  · exact numberAux_entry _ _ _ _ _ hi hj
  · exact numberAux_total _ _ _
  · show some (numberAux (fun a b => g.isPrescribed a b) g.dim (List.range g.nfens) 0).1
        = some (numberAux (fun a b => f.isPrescribed a b) f.dim (List.range f.nfens) 0).1
    rw [hfun, hn, hd]
  · show (numberAux (fun a b => g.isPrescribed a b) g.dim (List.range g.nfens) 0).2
        = (numberAux (fun a b => f.isPrescribed a b) f.dim (List.range f.nfens) 0).2
    rw [hfun, hn, hd]

/-- Witness for C1 at the concrete 3×2 field `demoField` and entry
`(1, 0)`. -/
theorem fieldNumbering_dense_witness :
    (1 < demoField.nfens ∧ 0 < demoField.dim) ∧
    (∃ E : List (List ℤ),
      demoField.numberEqnums_.eqnums = some E ∧
      entry2 E 1 0 FeField.INVALID_EQUATION_NUM =
        (if demoField.isPrescribed 1 0 then FeField.INVALID_EQUATION_NUM
         else (freeBefore (fun a b => demoField.isPrescribed a b) demoField.dim 1 0 : ℤ)) ∧
      demoField.numberEqnums_.neqns =
        (demoField.nfens * demoField.dim : ℤ)
          - (prescribedCount (fun a b => demoField.isPrescribed a b)
              demoField.nfens demoField.dim : ℤ) ∧
      demoField.numberEqnums_.eqnums = demoField.numberEqnums_.eqnums ∧
      demoField.numberEqnums_.neqns = demoField.numberEqnums_.neqns) :=
  ⟨⟨by decide, by decide⟩,
    fieldNumbering_dense demoField demoField 1 0 (by decide) (by decide) rfl rfl
      (fun _ _ => rfl)⟩

-- characterization of the scatter write pass

theorem scatterRow_nil (eq : List (List ℤ)) (vec : List ℚ) (i : ℕ)
    (vs : List (List ℚ)) : scatterRow eq vec i [] vs = vs := rfl

theorem scatterRow_cons (eq : List (List ℤ)) (vec : List ℚ) (i j : ℕ) (js : List ℕ)
    (vs : List (List ℚ)) :
    scatterRow eq vec i (j :: js) vs = scatterRow eq vec i js (scatterCell eq vec i j vs) := rfl

theorem scatterOuter_nil (eq : List (List ℤ)) (vec : List ℚ) (js : List ℕ)
    (vals : List (List ℚ)) : scatterOuter eq vec js [] vals = vals := rfl

theorem scatterOuter_cons (eq : List (List ℤ)) (vec : List ℚ) (js : List ℕ) (i : ℕ)
    (is : List ℕ) (vals : List (List ℚ)) :
    scatterOuter eq vec js (i :: is) vals =
      scatterOuter eq vec js is (scatterRow eq vec i js vals) := rfl

theorem scatterRowVals_nil (eq : List (List ℤ)) (vec : List ℚ) (i : ℕ) (r : List ℚ) :
    scatterRowVals eq vec i [] r = r := rfl

theorem scatterRowVals_cons (eq : List (List ℤ)) (vec : List ℚ) (i j : ℕ) (js : List ℕ)
    (r : List ℚ) :
    scatterRowVals eq vec i (j :: js) r =
      scatterRowVals eq vec i js
        (if entry2 eq i j FeField.INVALID_EQUATION_NUM ≠ FeField.INVALID_EQUATION_NUM then
          r.set j (vec.getD (entry2 eq i j FeField.INVALID_EQUATION_NUM).toNat 0)
        else r) := rfl

theorem setEntry_length (m : List (List α)) (i j : ℕ) (v : α) :
    (setEntry m i j v).length = m.length := by
  simp [setEntry]

theorem scatterCell_length (eq : List (List ℤ)) (vec : List ℚ) (i j : ℕ)
    (vs : List (List ℚ)) : (scatterCell eq vec i j vs).length = vs.length := by
  unfold scatterCell
  by_cases h : entry2 eq i j FeField.INVALID_EQUATION_NUM ≠ FeField.INVALID_EQUATION_NUM
  · rw [if_pos h, setEntry_length]
  · rw [if_neg h]

theorem scatterRow_length (eq : List (List ℤ)) (vec : List ℚ) (i : ℕ) (js : List ℕ)
    (vs : List (List ℚ)) : (scatterRow eq vec i js vs).length = vs.length := by
  induction js generalizing vs with
  | nil => rfl
  | cons j js ih => rw [scatterRow_cons, ih, scatterCell_length]

theorem scatterCell_getD_other (eq : List (List ℤ)) (vec : List ℚ) (i j i' : ℕ)
    (vs : List (List ℚ)) (h : i' ≠ i) :
    (scatterCell eq vec i j vs).getD i' [] = vs.getD i' [] := by
  unfold scatterCell setEntry
  by_cases hc : entry2 eq i j FeField.INVALID_EQUATION_NUM ≠ FeField.INVALID_EQUATION_NUM
  · rw [if_pos hc]
    exact getD_set_other _ i i' _ _ (fun e => h e.symm)
  · rw [if_neg hc]

theorem scatterRow_getD_other (eq : List (List ℤ)) (vec : List ℚ) (i i' : ℕ) (js : List ℕ)
    (vs : List (List ℚ)) (h : i' ≠ i) :
    (scatterRow eq vec i js vs).getD i' [] = vs.getD i' [] := by
  induction js generalizing vs with
  | nil => rfl
  | cons j js ih =>
    rw [scatterRow_cons, ih, scatterCell_getD_other _ _ _ _ _ _ h]

theorem scatterRow_getD_self (eq : List (List ℤ)) (vec : List ℚ) (i : ℕ) (js : List ℕ)
    (vs : List (List ℚ)) (h : i < vs.length) :
    (scatterRow eq vec i js vs).getD i [] = scatterRowVals eq vec i js (vs.getD i []) := by
  induction js generalizing vs with
  | nil => rfl
  | cons j js ih =>
    rw [scatterRow_cons, scatterRowVals_cons]
    rw [ih (scatterCell eq vec i j vs) (by rw [scatterCell_length]; exact h)]
    congr 1
    unfold scatterCell setEntry
    by_cases hc : entry2 eq i j FeField.INVALID_EQUATION_NUM ≠ FeField.INVALID_EQUATION_NUM
    · rw [if_pos hc, if_pos hc]
      exact getD_set_self _ _ _ _ h
    · rw [if_neg hc, if_neg hc]

theorem scatterRowVals_length (eq : List (List ℤ)) (vec : List ℚ) (i : ℕ) (js : List ℕ)
    (r : List ℚ) : (scatterRowVals eq vec i js r).length = r.length := by
  induction js generalizing r with
  | nil => rfl
  | cons j js ih =>
    rw [scatterRowVals_cons, ih]
    by_cases hc : entry2 eq i j FeField.INVALID_EQUATION_NUM ≠ FeField.INVALID_EQUATION_NUM
    · rw [if_pos hc, List.length_set]
    · rw [if_neg hc]

theorem scatterRowVals_untouched (eq : List (List ℤ)) (vec : List ℚ) (i j' : ℕ)
    (js : List ℕ) (r : List ℚ) (d : ℚ) (h : j' ∉ js) :
    (scatterRowVals eq vec i js r).getD j' d = r.getD j' d := by
  induction js generalizing r with
  | nil => rfl
  | cons j js ih =>
    have hj : j' ≠ j := fun e => h (e ▸ List.mem_cons_self j js)
    rw [scatterRowVals_cons, ih _ (fun m => h (List.mem_cons_of_mem j m))]
    by_cases hc : entry2 eq i j FeField.INVALID_EQUATION_NUM ≠ FeField.INVALID_EQUATION_NUM
    · rw [if_pos hc]
      exact getD_set_other _ _ _ _ _ (fun e => hj e.symm)
    · rw [if_neg hc]

theorem scatterRowVals_getD (eq : List (List ℤ)) (vec : List ℚ) (i j' : ℕ) (js : List ℕ)
    (r : List ℚ) (d : ℚ) (hnd : js.Nodup) (hm : j' ∈ js) (hlt : j' < r.length) :
    (scatterRowVals eq vec i js r).getD j' d =
      if entry2 eq i j' FeField.INVALID_EQUATION_NUM ≠ FeField.INVALID_EQUATION_NUM then
        vec.getD (entry2 eq i j' FeField.INVALID_EQUATION_NUM).toNat 0
      else r.getD j' d := by
  induction js generalizing r with
  | nil => simp at hm
  | cons j js ih =>
    rw [scatterRowVals_cons]
    rcases List.mem_cons.mp hm with he | hm'
    · subst he
      have hnotin : j' ∉ js := (List.nodup_cons.mp hnd).1
      rw [scatterRowVals_untouched _ _ _ _ _ _ _ hnotin]
      by_cases hc : entry2 eq i j' FeField.INVALID_EQUATION_NUM ≠ FeField.INVALID_EQUATION_NUM
      · rw [if_pos hc, if_pos hc]
        exact getD_set_self _ _ _ _ hlt
      · rw [if_neg hc, if_neg hc]
    · have hj : j' ≠ j := fun e => (List.nodup_cons.mp hnd).1 (e ▸ hm')
      by_cases hc : entry2 eq i j FeField.INVALID_EQUATION_NUM ≠ FeField.INVALID_EQUATION_NUM
      · rw [if_pos hc]
        rw [ih _ (List.nodup_cons.mp hnd).2 hm' (by simpa using hlt)]
        rw [getD_set_other _ _ _ _ _ (fun e => hj e.symm)]
      · rw [if_neg hc]
        exact ih _ (List.nodup_cons.mp hnd).2 hm' hlt

theorem scatterOuter_length (eq : List (List ℤ)) (vec : List ℚ) (js is : List ℕ)
    (vals : List (List ℚ)) : (scatterOuter eq vec js is vals).length = vals.length := by
  induction is generalizing vals with
  | nil => rfl
  | cons i is ih =>
    rw [scatterOuter_cons, ih, scatterRow_length]

theorem scatterOuter_untouched (eq : List (List ℤ)) (vec : List ℚ) (js is : List ℕ)
    (i' : ℕ) (vals : List (List ℚ)) (h : i' ∉ is) :
    (scatterOuter eq vec js is vals).getD i' [] = vals.getD i' [] := by
  induction is generalizing vals with
  | nil => rfl
  | cons i is ih =>
    rw [scatterOuter_cons, ih _ (fun m => h (List.mem_cons_of_mem i m))]
    exact scatterRow_getD_other _ _ _ _ _ _ (fun e => h (e ▸ List.mem_cons_self i is))

theorem scatterOuter_getD (eq : List (List ℤ)) (vec : List ℚ) (js is : List ℕ)
    (i : ℕ) (vals : List (List ℚ)) (hnd : is.Nodup) (hm : i ∈ is)
    (hlt : i < vals.length) :
    (scatterOuter eq vec js is vals).getD i [] =
      scatterRowVals eq vec i js (vals.getD i []) := by
  induction is generalizing vals with
  | nil => simp at hm
  | cons i0 is ih =>
    rw [scatterOuter_cons]
    rcases List.mem_cons.mp hm with he | hm'
    · subst he
      have hnotin : i ∉ is := (List.nodup_cons.mp hnd).1
      rw [scatterOuter_untouched _ _ _ _ _ _ hnotin]
      exact scatterRow_getD_self _ _ _ _ _ hlt
    · have hi : i ≠ i0 := fun e => (List.nodup_cons.mp hnd).1 (e ▸ hm')
      rw [ih _ (List.nodup_cons.mp hnd).2 hm' (by rw [scatterRow_length]; exact hlt)]
      rw [scatterRow_getD_other _ _ _ _ _ _ hi]

/-- Entry characterization of the full write pass. -/
theorem scatterLoop_entry (eq : List (List ℤ)) (vec : List ℚ) (nfens dim i j : ℕ)
    (vals : List (List ℚ)) (hi : i < nfens) (hj : j < dim)
    (hiv : i < vals.length) (hjv : j < (vals.getD i []).length) :
    entry2 (scatterLoop eq vec nfens dim vals) i j 0 =
      if entry2 eq i j FeField.INVALID_EQUATION_NUM ≠ FeField.INVALID_EQUATION_NUM then
        vec.getD (entry2 eq i j FeField.INVALID_EQUATION_NUM).toNat 0
      else entry2 vals i j 0 := by
  unfold scatterLoop entry2
  rw [scatterOuter_getD _ _ _ _ _ _ (List.nodup_range _) (List.mem_range.mpr hi) hiv]
  exact scatterRowVals_getD _ _ _ _ _ _ _ (List.nodup_range _) (List.mem_range.mpr hj) hjv

theorem headD_eq_getD (l : List α) (d : α) : l.headD d = l.getD 0 d := by
  cases l <;> rfl

theorem getD_mem (l : List α) (i : ℕ) (d : α) (h : i < l.length) : l.getD i d ∈ l := by
  rw [List.getD_eq_getElem?_getD, List.getElem?_eq_getElem h]
  exact List.getElem_mem h

theorem ensureNumbered_of_cache (f : FeField)
    (hc : f.eqnums = none ∨ f.numberEqnums_ = f) :
    f.ensureNumbered = f.numberEqnums_ := by
  rcases hc with h | h
  · simp [FeField.ensureNumbered, h]
  · have hsome : f.eqnums.isNone = false := by
      rw [← h]
      rfl
    simp [FeField.ensureNumbered, hsome, h]

/-- C2: for a field whose numbering cache is absent or consistent,
`scatterSystemVector_(v)` with `v` of length `neqns` succeeds, and reading
back each free `(node, component)` entry via `at()` yields exactly the
entry of `v` at that cell's equation number, while every prescribed entry
keeps the value it held before the call. -/
theorem scatter_roundtrip (f : FeField) (vec : List ℚ)
    (hc : f.eqnums = none ∨ f.numberEqnums_ = f)
    (hrows : ∀ r ∈ f.values, r.length = f.dim)
    (hlen : (vec.length : ℤ) = f.numberEqnums_.neqns) :
    ∃ fOut E, f.scatterSystemVector_ vec = Except.ok fOut ∧
      fOut.eqnums = some E ∧
      ∀ i j, i < f.nfens → j < f.dim →
        (f.isPrescribed i j = false →
          (fOut.at' i).getD j 0 =
            vec.getD (entry2 E i j FeField.INVALID_EQUATION_NUM).toNat 0 ∧
          (fOut.eqnumRead i j).2 =
            Except.ok (entry2 E i j FeField.INVALID_EQUATION_NUM)) ∧
        (f.isPrescribed i j = true →
          (fOut.at' i).getD j 0 = (f.at' i).getD j 0) := by
  have hEn := ensureNumbered_of_cache f hc
  have hok : f.scatterSystemVector_ vec =
      Except.ok { f.numberEqnums_ with
                   values := scatterLoop (f.numberEqnums_.eqnums.getD []) vec
                     f.numberEqnums_.nfens f.numberEqnums_.dim f.numberEqnums_.values } := by
    unfold FeField.scatterSystemVector_
    rw [hEn, if_neg (fun hne => hne hlen)]
  refine ⟨_, (numberAux (fun a b => f.isPrescribed a b) f.dim (List.range f.nfens) 0).1,
    hok, rfl, ?_⟩
  intro i j hi hj
  have hiv : i < f.values.length := hi
  have hjv : j < (f.values.getD i []).length := by
    rw [hrows (f.values.getD i []) (getD_mem _ _ _ hiv)]
    exact hj
  have hentry := numberAux_entry (fun a b => f.isPrescribed a b) f.dim f.nfens i j hi hj
  have hvals := scatterLoop_entry
    (numberAux (fun a b => f.isPrescribed a b) f.dim (List.range f.nfens) 0).1
    vec f.nfens f.dim i j f.values hi hj hiv hjv
  constructor
  · intro hfree
    have hval : entry2 (numberAux (fun a b => f.isPrescribed a b) f.dim
        (List.range f.nfens) 0).1 i j FeField.INVALID_EQUATION_NUM =
        ((freeBefore (fun a b => f.isPrescribed a b) f.dim i j : ℕ) : ℤ) := by
      rw [hentry, if_neg]
      simp [hfree]
    have hne : entry2 (numberAux (fun a b => f.isPrescribed a b) f.dim
        (List.range f.nfens) 0).1 i j FeField.INVALID_EQUATION_NUM ≠
        FeField.INVALID_EQUATION_NUM := by
      rw [hval]
      unfold FeField.INVALID_EQUATION_NUM
      omega
    constructor
    · show entry2 (scatterLoop (numberAux (fun a b => f.isPrescribed a b) f.dim
          (List.range f.nfens) 0).1 vec f.nfens f.dim f.values) i j 0 = _
      rw [hvals, if_pos hne]
    · have houtv : ({ f.numberEqnums_ with
          values := scatterLoop (f.numberEqnums_.eqnums.getD []) vec
            f.numberEqnums_.nfens f.numberEqnums_.dim f.numberEqnums_.values } :
            FeField).eqnums =
          some (numberAux (fun a b => f.isPrescribed a b) f.dim
            (List.range f.nfens) 0).1 := rfl
      generalize hOut : ({ f.numberEqnums_ with
          values := scatterLoop (f.numberEqnums_.eqnums.getD []) vec
            f.numberEqnums_.nfens f.numberEqnums_.dim f.numberEqnums_.values } :
            FeField) = fOut
      rw [hOut] at houtv
      have hnf : fOut.nfens = f.nfens := by
        rw [← hOut]
        show (scatterLoop _ _ _ _ _).length = f.values.length
        unfold scatterLoop
        rw [scatterOuter_length]
        rfl
      have hrow0 : fOut.values.getD 0 [] =
          scatterRowVals (f.numberEqnums_.eqnums.getD []) vec 0 (List.range f.dim)
            (f.values.getD 0 []) := by
        rw [← hOut]
        show (scatterLoop _ _ _ _ _).getD 0 [] = _
        unfold scatterLoop
        exact scatterOuter_getD _ _ _ _ _ _ (List.nodup_range _)
          (List.mem_range.mpr (Nat.lt_of_le_of_lt (Nat.zero_le i) hi))
          (Nat.lt_of_le_of_lt (Nat.zero_le i) hiv)
      have hdim : fOut.dim = f.dim := by
        show (fOut.values.headD []).length = f.dim
        rw [headD_eq_getD, hrow0, scatterRowVals_length]
        exact hrows _ (getD_mem _ _ _ (Nat.lt_of_le_of_lt (Nat.zero_le i) hiv))
      have hEn2 : fOut.ensureNumbered = fOut := by
        unfold FeField.ensureNumbered
        rw [houtv]
        rfl
      unfold FeField.eqnumRead
      rw [hEn2, if_neg (by rw [hnf]; omega), if_neg (by rw [hdim]; omega), houtv]
      rfl
  · intro hpres
    have heq : entry2 (numberAux (fun a b => f.isPrescribed a b) f.dim
        (List.range f.nfens) 0).1 i j FeField.INVALID_EQUATION_NUM =
        FeField.INVALID_EQUATION_NUM := by
      rw [hentry, if_pos]
      simp [hpres]
    show entry2 (scatterLoop (numberAux (fun a b => f.isPrescribed a b) f.dim
        (List.range f.nfens) 0).1 vec f.nfens f.dim f.values) i j 0 = _
    rw [hvals, if_neg (by simp [heq])]
    rfl

/-- Witness for C2: `demoField` (4 free DOFs) scattered with `[1, 2, 3, 4]`. -/
theorem scatter_roundtrip_witness :
    ((demoField.eqnums = none ∨ demoField.numberEqnums_ = demoField) ∧
      (∀ r ∈ demoField.values, r.length = demoField.dim) ∧
      ((([1, 2, 3, 4] : List ℚ).length : ℤ) = demoField.numberEqnums_.neqns)) ∧
    (∃ fOut E, demoField.scatterSystemVector_ [1, 2, 3, 4] = Except.ok fOut ∧
      fOut.eqnums = some E ∧
      ∀ i j, i < demoField.nfens → j < demoField.dim →
        (demoField.isPrescribed i j = false →
          (fOut.at' i).getD j 0 =
            ([1, 2, 3, 4] : List ℚ).getD
              (entry2 E i j FeField.INVALID_EQUATION_NUM).toNat 0 ∧
          (fOut.eqnumRead i j).2 =
            Except.ok (entry2 E i j FeField.INVALID_EQUATION_NUM)) ∧
        (demoField.isPrescribed i j = true →
          (fOut.at' i).getD j 0 = (demoField.at' i).getD j 0)) :=
  ⟨⟨Or.inl rfl, by decide, by decide⟩,
    scatter_roundtrip demoField [1, 2, 3, 4] (Or.inl rfl) (by decide) (by decide)⟩

/-- C3: constructing `Q4` with `conn = [[0,1,2,3]]` succeeds and its
`boundary()` is an `L2` cell set (the type of `boundaryGCellSetConstructor`)
whose topology holds exactly the 4 side edges of the quad. -/
theorem q4_boundary_four_edges :
    mkQ4 [some [0, 1, 2, 3]] none none = Except.ok unitQ4 ∧
    unitQ4.boundary.type = "L2" ∧
    unitQ4.boundary.conn = [[0, 1], [1, 2], [2, 3], [3, 0]] ∧
    unitQ4.boundary.count = 4 ∧
    unitQ4.boundary.topology.getNumOfCellsInDim 1 = 4 :=
  ⟨rfl, rfl, by decide, by decide, by decide⟩

/-- C4: partition of unity — for any valid parametric point the entries of
`bfun` sum to exactly 1 for both supported cell types (`L2` at a length-1
point, `Q4` at a length-2 point); in particular `L2.bfun([0])` returns
`[[0.5], [0.5]]`. -/
theorem bfun_partition_of_unity (p q : List ℚ) (hp : p.length = 1) (hq : q.length = 2) :
    (∃ m, L2bfun p = Except.ok m ∧ sumMatQ m = 1) ∧
    (∃ m, Q4bfun q = Except.ok m ∧ sumMatJs m = some 1) ∧
    L2bfun [0] = Except.ok [[1/2], [1/2]] := by
  refine ⟨?_, ?_, by norm_num [L2bfun]⟩
  · rcases p with _ | ⟨x, _ | ⟨y, rest⟩⟩ <;> simp at hp
    refine ⟨_, rfl, ?_⟩
    simp [sumMatQ, List.getD]
    ring
  · rcases q with _ | ⟨x, _ | ⟨y, _ | ⟨z, rest⟩⟩⟩ <;> simp at hq
    refine ⟨_, rfl, ?_⟩
    simp [Q4bfun, sumMatJs, jadd, jmul, jsub]
    ring

/-- Witness for C4 at `p = [0]`, `q = [0, 0]`. -/
theorem bfun_partition_of_unity_witness :
    (([0] : List ℚ).length = 1 ∧ ([0, 0] : List ℚ).length = 2) ∧
    ((∃ m, L2bfun [0] = Except.ok m ∧ sumMatQ m = 1) ∧
      (∃ m, Q4bfun [0, 0] = Except.ok m ∧ sumMatJs m = some 1) ∧
      L2bfun [0] = Except.ok [[1/2], [1/2]]) :=
  ⟨⟨by decide, by decide⟩,
    bfun_partition_of_unity [0] [0, 0] (by decide) (by decide)⟩

theorem getD_eq_get (l : List α) (n : ℕ) (d : α) (h : n < l.length) :
    l.getD n d = l.get ⟨n, h⟩ := by
  rw [List.getD_eq_getElem?_getD, List.getElem?_eq_getElem h]
  rfl

theorem jsIdx_in_range (l : List α) (idx : ℤ) (d : α) (h0 : 0 ≤ idx)
    (h1 : idx.toNat < l.length) :
    jsIdx l idx = some (l.getD idx.toNat d) := by
  unfold jsIdx
  rw [dif_pos ⟨h0, h1⟩, getD_eq_get l idx.toNat d h1]

theorem connConsistent_of_all (conn : List (Option (List ℕ))) (n : ℕ)
    (h : ∀ r ∈ conn, ∃ row, r = some row ∧ row.length = n) :
    connConsistent conn = true := by
  unfold connConsistent
  rcases conn with _ | ⟨r, rs⟩
  · rfl
  · rw [Bool.and_eq_true]
    constructor
    · rw [List.all_eq_true]
      intro x hx
      obtain ⟨row, he, _⟩ := h x hx
      rw [he]
      rfl
    · rw [List.all_eq_true]
      intro q hq
      obtain ⟨rowq, heq, hlq⟩ := h q (List.mem_cons_of_mem _ hq)
      obtain ⟨rowr, her, hlr⟩ := h r (List.mem_cons_self _ _)
      rw [heq, her]
      simp [hlq, hlr]

theorem subsetConn_sel (conn : List (List ℕ)) (indices : List ℤ)
    (hin : ∀ idx ∈ indices, 0 ≤ idx ∧ idx.toNat < conn.length) :
    (subsetConn conn indices).map (fun r => r.getD []) =
      indices.map (fun idx => conn.getD idx.toNat []) := by
  unfold subsetConn
  rw [List.map_map]
  apply List.map_congr_left
  intro idx hm
  obtain ⟨h0, h1⟩ := hin idx hm
  simp [Function.comp, jsIdx_in_range _ _ [] h0 h1]

theorem mkQ4_subset_ok (s : Q4Set) (indices : List ℤ)
    (hrows4 : ∀ r ∈ s.conn, r.length = 4)
    (hin : ∀ idx ∈ indices, 0 ≤ idx ∧ idx.toNat < s.conn.length)
    (hnem : indices ≠ []) :
    s.subset indices = Except.ok
      { topology := hypercube (indices.map (fun idx => s.conn.getD idx.toNat [])) 2,
        axisSymm := s.axisSymm, otherDimension := s.otherDimension } := by
  have hsome : ∀ r ∈ subsetConn s.conn indices, ∃ row, r = some row ∧ row.length = 4 := by
    intro r hr
    rw [subsetConn, List.mem_map] at hr
    obtain ⟨idx, hidx, he⟩ := hr
    obtain ⟨h0, h1⟩ := hin idx hidx
    refine ⟨s.conn.getD idx.toNat [], ?_, hrows4 _ (getD_mem _ _ _ h1)⟩
    rw [← he, jsIdx_in_range _ _ [] h0 h1]
  have hcons := connConsistent_of_all (subsetConn s.conn indices) 4 hsome
  unfold Q4Set.subset mkQ4
  rw [if_pos hcons, subsetConn_sel s.conn indices hin]
  rcases hidces : indices with _ | ⟨i0, rest⟩
  · exact absurd hidces hnem
  · have hhead : ((indices.map (fun idx => s.conn.getD idx.toNat [])).headD []).length = 4 := by
      rw [hidces]
      exact hrows4 _ (getD_mem _ _ _ (hin i0 (hidces ▸ List.mem_cons_self i0 rest)).2)
    rw [← hidces]
    have hsize : (hypercube (indices.map (fun idx => s.conn.getD idx.toNat [])) 2).getCellSizeInDim
        (hypercube (indices.map (fun idx => s.conn.getD idx.toNat [])) 2).getDim = 4 := hhead
    rw [if_pos (by rw [hsize]; simp [hypercube, FeTopology.getDim])]
    rfl

theorem mkL2_subset_ok (s : L2Set) (indices : List ℤ)
    (hrows2 : ∀ r ∈ s.conn, r.length = 2)
    (hin : ∀ idx ∈ indices, 0 ≤ idx ∧ idx.toNat < s.conn.length)
    (hnem : indices ≠ []) :
    s.subset indices = Except.ok
      { topology := hypercube (indices.map (fun idx => s.conn.getD idx.toNat [])) 1,
        axisSymm := s.axisSymm, otherDimension := s.otherDimension } := by
  have hsome : ∀ r ∈ subsetConn s.conn indices, ∃ row, r = some row ∧ row.length = 2 := by
    intro r hr
    rw [subsetConn, List.mem_map] at hr
    obtain ⟨idx, hidx, he⟩ := hr
    obtain ⟨h0, h1⟩ := hin idx hidx
    refine ⟨s.conn.getD idx.toNat [], ?_, hrows2 _ (getD_mem _ _ _ h1)⟩
    rw [← he, jsIdx_in_range _ _ [] h0 h1]
  have hcons := connConsistent_of_all (subsetConn s.conn indices) 2 hsome
  unfold L2Set.subset mkL2
  rw [if_pos hcons, subsetConn_sel s.conn indices hin]
  rcases hidces : indices with _ | ⟨i0, rest⟩
  · exact absurd hidces hnem
  · have hhead : ((indices.map (fun idx => s.conn.getD idx.toNat [])).headD []).length = 2 := by
      rw [hidces]
      exact hrows2 _ (getD_mem _ _ _ (hin i0 (hidces ▸ List.mem_cons_self i0 rest)).2)
    rw [← hidces]
    have hsize : (hypercube (indices.map (fun idx => s.conn.getD idx.toNat [])) 1).getCellSizeInDim
        (hypercube (indices.map (fun idx => s.conn.getD idx.toNat [])) 1).getDim = 2 := hhead
    rw [if_pos (by rw [hsize]; simp [hypercube, FeTopology.getDim])]
    rfl

/-- C5 (amended): for both concrete cell types, `subset(indices)` with
in-range indices returns a new cell set whose top-dimension cells are
exactly the original cells at the given positions, in the given order,
preserving `axisSymm` and `otherDimension`; but `subset` performs no index
validation — an out-of-range index is not rejected with
`IndexOutOfRangeError` (see the counterexample). -/
theorem subset_selects_and_preserves (q : Q4Set) (l : L2Set) (indices : List ℤ)
    (hq4 : ∀ r ∈ q.conn, r.length = 4) (hl2 : ∀ r ∈ l.conn, r.length = 2)
    (hinq : ∀ idx ∈ indices, 0 ≤ idx ∧ idx.toNat < q.conn.length)
    (hinl : ∀ idx ∈ indices, 0 ≤ idx ∧ idx.toNat < l.conn.length)
    (hnem : indices ≠ []) :
    (∃ q', q.subset indices = Except.ok q' ∧
      q'.conn = indices.map (fun idx => q.conn.getD idx.toNat []) ∧
      q'.axisSymm = q.axisSymm ∧ q'.otherDimension = q.otherDimension) ∧
    (∃ l', l.subset indices = Except.ok l' ∧
      l'.conn = indices.map (fun idx => l.conn.getD idx.toNat []) ∧
      l'.axisSymm = l.axisSymm ∧ l'.otherDimension = l.otherDimension) :=
  ⟨⟨_, mkQ4_subset_ok q indices hq4 hinq hnem, rfl, rfl, rfl⟩,
   ⟨_, mkL2_subset_ok l indices hl2 hinl hnem, rfl, rfl, rfl⟩⟩

/-- Counterexample to C5 as stated: on the 3-cell `Q4` set `demoQ4`, the
out-of-range index 5 is not rejected with `IndexOutOfRangeError`:
`subset` pushes the JS `undefined` row, and the failure that eventually
surfaces comes from topology construction
(`InvalidTopologyError ≠ IndexOutOfRangeError`). -/
theorem subset_no_range_check_cex :
    demoQ4.count = 3 ∧
    demoQ4.subset [5] = Except.error JsErr.invalidTopology ∧
    subsetConn demoQ4.conn [5] = [none] ∧
    JsErr.invalidTopology ≠ JsErr.indexOutOfRange :=
  ⟨by decide, rfl, by decide, by decide⟩

/-- Witness for C5 (amended) at the spec's example: `subset([1])` on the
3-cell set `demoQ4` and on a 2-cell `L2` set. -/
theorem subset_selects_and_preserves_witness :
    ((∀ r ∈ demoQ4.conn, r.length = 4) ∧
      (∀ r ∈ demoL2.conn, r.length = 2) ∧
      (∀ idx ∈ ([1] : List ℤ), 0 ≤ idx ∧ idx.toNat < demoQ4.conn.length) ∧
      (∀ idx ∈ ([1] : List ℤ), 0 ≤ idx ∧ idx.toNat < demoL2.conn.length) ∧
      ([1] : List ℤ) ≠ []) ∧
    ((∃ q', demoQ4.subset [1] = Except.ok q' ∧
      q'.conn = ([1] : List ℤ).map (fun idx => demoQ4.conn.getD idx.toNat []) ∧
      q'.axisSymm = demoQ4.axisSymm ∧ q'.otherDimension = demoQ4.otherDimension) ∧
    (∃ l', demoL2.subset [1] = Except.ok l' ∧
      l'.conn = ([1] : List ℤ).map (fun idx => demoL2.conn.getD idx.toNat []) ∧
      l'.axisSymm = demoL2.axisSymm ∧ l'.otherDimension = demoL2.otherDimension)) :=
  ⟨⟨by decide, by decide, by decide, by decide, by decide⟩,
    subset_selects_and_preserves demoQ4 demoL2 [1] (by decide) (by decide)
      (by decide) (by decide) (by decide)⟩

/-- C6 (amended): `L2`'s `bfun`/`bfundpar` fail with `InvalidInputError`
whenever `paramCoords` is not a vector of length `dim() = 1`; but `Q4`'s
`bfun`/`bfundpar` perform no input validation and never fail — for any
`paramCoords` they return a matrix (with `NaN` entries when the vector is
too short). -/
theorem bfun_input_validation (p : List ℚ) (hne : p.length ≠ 1) (q : List ℚ) :
    L2bfun p = Except.error JsErr.invalidInput ∧
    L2bfundpar p = Except.error JsErr.invalidInput ∧
    (∃ m, Q4bfun q = Except.ok m) ∧
    (∃ m, Q4bfundpar q = Except.ok m) := by
  refine ⟨?_, ?_, ⟨_, rfl⟩, ⟨_, rfl⟩⟩ <;> simp [L2bfun, L2bfundpar, hne]

/-- Counterexample to C6 as stated: `Q4.bfun` on the wrong-length vector
`[0, 0, 0]` does not fail with `InvalidInputError` — it returns a normal
matrix. -/
theorem q4_bfun_no_validation_cex :
    (([0, 0, 0] : List ℚ).length ≠ 2) ∧
    Q4bfun [0, 0, 0] =
      Except.ok [[some (1/4)], [some (1/4)], [some (1/4)], [some (1/4)]] ∧
    (∃ m, Q4bfundpar [0, 0, 0] = Except.ok m) :=
  ⟨by decide, by norm_num [Q4bfun, jsub, jadd, jmul], ⟨_, rfl⟩⟩

/-- Witness for C6 (amended) at `p = [0, 0]` (wrong length for `L2`) and
`q = [0]` (wrong length for `Q4`, still returning a matrix). -/
theorem bfun_input_validation_witness :
    (([0, 0] : List ℚ).length ≠ 1) ∧
    (L2bfun [0, 0] = Except.error JsErr.invalidInput ∧
      L2bfundpar [0, 0] = Except.error JsErr.invalidInput ∧
      (∃ m, Q4bfun [0] = Except.ok m) ∧
      (∃ m, Q4bfundpar [0] = Except.ok m)) :=
  ⟨by decide, bfun_input_validation [0, 0] (by decide) [0]⟩

theorem exists_pair_of_length_two (r : List ℝ) (h : r.length = 2) :
    ∃ a b, r = [a, b] := by
  rcases r with _ | ⟨a, _ | ⟨b, _ | ⟨c, t⟩⟩⟩ <;> simp at h
  exact ⟨a, b, rfl⟩

/-- C7: for a 2-manifold cell set, `jacobianSurface` returns the
determinant of `J` when `J` is square 2×2 (ambient dimension equal to the
2 tangent columns), and the Euclidean norm of the cross product of the two
tangent columns when the cell is embedded in 3-space. -/
theorem m2_jacobianSurface_det_or_cross (s : ManifoldState) (conn : List ℕ)
    (N x J : List (List ℝ)) (hrows : ∀ r ∈ J, r.length = 2) :
    (J.length = 2 → jacobianSurfaceM2 s conn N J x = Except.ok (det2 J)) ∧
    (J.length = 3 → jacobianSurfaceM2 s conn N J x =
      Except.ok (normE (cross3 (tangentCol J 0) (tangentCol J 1)))) := by
  constructor
  · intro h2
    rcases J with _ | ⟨r0, _ | ⟨r1, _ | ⟨r2, rest⟩⟩⟩ <;> simp at h2
    obtain ⟨a, b, he0⟩ := exists_pair_of_length_two r0 (hrows r0 (by simp))
    obtain ⟨c, d, he1⟩ := exists_pair_of_length_two r1 (hrows r1 (by simp))
    subst he0 he1
    show Except.ok (a * d - c * b) = Except.ok (a * d - b * c)
    rw [mul_comm b c]
  · intro h3
    rcases J with _ | ⟨r0, _ | ⟨r1, _ | ⟨r2, _ | ⟨r3, rest⟩⟩⟩⟩ <;> simp at h3
    obtain ⟨a, b, he0⟩ := exists_pair_of_length_two r0 (hrows r0 (by simp))
    obtain ⟨c, d, he1⟩ := exists_pair_of_length_two r1 (hrows r1 (by simp))
    obtain ⟨e, f, he2⟩ := exists_pair_of_length_two r2 (hrows r2 (by simp))
    subst he0 he1 he2
    have hlist : dotMV (skewmat (nthColumn [[a, b], [c, d], [e, f]] 1))
        (nthColumn [[a, b], [c, d], [e, f]] 2) =
        cross3 (tangentCol [[a, b], [c, d], [e, f]] 0)
          (tangentCol [[a, b], [c, d], [e, f]] 1) := by
      simp [skewmat, nthColumn, dotMV, dotL, cross3, tangentCol]
      refine ⟨by ring, by ring, by ring⟩
    show Except.ok (normE (dotMV (skewmat (nthColumn [[a, b], [c, d], [e, f]] 1))
        (nthColumn [[a, b], [c, d], [e, f]] 2))) = _
    rw [hlist]

/-- Witness for C7 at the embedded-in-3-space Jacobian
`J = [[1,0],[0,1],[0,0]]`. -/
theorem m2_jacobianSurface_det_or_cross_witness :
    (∀ r ∈ ([[1, 0], [0, 1], [0, 0]] : List (List ℝ)), r.length = 2) ∧
    ((([[1, 0], [0, 1], [0, 0]] : List (List ℝ)).length = 2 →
      jacobianSurfaceM2 demoManifold [] [] [[1, 0], [0, 1], [0, 0]] [] =
        Except.ok (det2 [[1, 0], [0, 1], [0, 0]])) ∧
    (([[1, 0], [0, 1], [0, 0]] : List (List ℝ)).length = 3 →
      jacobianSurfaceM2 demoManifold [] [] [[1, 0], [0, 1], [0, 0]] [] =
        Except.ok (normE (cross3 (tangentCol [[1, 0], [0, 1], [0, 0]] 0)
          (tangentCol [[1, 0], [0, 1], [0, 0]] 1))))) :=
  ⟨by decide, m2_jacobianSurface_det_or_cross demoManifold [] [] []
    [[1, 0], [0, 1], [0, 0]] (by decide)⟩

/-- C8: `jacobianInDim` of a 1-manifold set dispatches `dim = 1, 2, 3` to
the curve, surface and volume Jacobians and fails with
`UnsupportedDimensionError` on any other value; for a 2-manifold set it
dispatches `dim ∈ {2, 3}` only, and `dim = 1` (like any other value
outside `{2, 3}`) fails. -/
theorem jacobianInDim_dispatch (s : ManifoldState) (conn : List ℕ)
    (N J x : List (List ℝ)) (d : ℤ)
    (hd1 : d ≠ 1) (hd2 : d ≠ 2) (hd3 : d ≠ 3) :
    jacobianInDimM1 s conn N J x 1 = Except.ok (jacobianCurveM1 s conn N J x) ∧
    jacobianInDimM1 s conn N J x 2 = Except.ok (jacobianSurfaceM1 s conn N J x) ∧
    jacobianInDimM1 s conn N J x 3 = Except.ok (jacobianVolumnM1 s conn N J x) ∧
    jacobianInDimM1 s conn N J x d = Except.error JsErr.unsupportedDimension ∧
    jacobianInDimM2 s conn N J x 2 = jacobianSurfaceM2 s conn N J x ∧
    jacobianInDimM2 s conn N J x 3 = jacobianVolumnM2 s conn N J x ∧
    jacobianInDimM2 s conn N J x 1 = Except.error JsErr.unsupportedDimension ∧
    jacobianInDimM2 s conn N J x d = Except.error JsErr.unsupportedDimension := by
  refine ⟨by norm_num [jacobianInDimM1], by norm_num [jacobianInDimM1],
    by norm_num [jacobianInDimM1], ?_, by norm_num [jacobianInDimM2],
    by norm_num [jacobianInDimM2], by norm_num [jacobianInDimM2], ?_⟩
  · unfold jacobianInDimM1
    rw [if_neg hd3, if_neg hd2, if_neg hd1]
  · unfold jacobianInDimM2
    rw [if_neg hd3, if_neg hd2]

/-- Witness for C8 at the unsupported dimension `d = 7`. -/
theorem jacobianInDim_dispatch_witness :
    ((7 : ℤ) ≠ 1 ∧ (7 : ℤ) ≠ 2 ∧ (7 : ℤ) ≠ 3) ∧
    (jacobianInDimM1 demoManifold [] [] [] [] 1 =
        Except.ok (jacobianCurveM1 demoManifold [] [] [] []) ∧
      jacobianInDimM1 demoManifold [] [] [] [] 2 =
        Except.ok (jacobianSurfaceM1 demoManifold [] [] [] []) ∧
      jacobianInDimM1 demoManifold [] [] [] [] 3 =
        Except.ok (jacobianVolumnM1 demoManifold [] [] [] []) ∧
      jacobianInDimM1 demoManifold [] [] [] [] 7 =
        Except.error JsErr.unsupportedDimension ∧
      jacobianInDimM2 demoManifold [] [] [] [] 2 =
        jacobianSurfaceM2 demoManifold [] [] [] [] ∧
      jacobianInDimM2 demoManifold [] [] [] [] 3 =
        jacobianVolumnM2 demoManifold [] [] [] [] ∧
      jacobianInDimM2 demoManifold [] [] [] [] 1 =
        Except.error JsErr.unsupportedDimension ∧
      jacobianInDimM2 demoManifold [] [] [] [] 7 =
        Except.error JsErr.unsupportedDimension) :=
  ⟨⟨by decide, by decide, by decide⟩,
    jacobianInDim_dispatch demoManifold [] [] [] [] 7 (by decide) (by decide) (by decide)⟩

theorem set_oob (l : List α) (i : ℕ) (a : α) (h : l.length ≤ i) : l.set i a = l := by
  induction l generalizing i with
  | nil => rfl
  | cons x xs ih =>
    cases i with
    | zero => simp at h
    | succ n => simp [List.set, ih n (by simpa using h)]

theorem setEntry_entry_self (m : List (List α)) (i j : ℕ) (v d : α)
    (hi : i < m.length) (hj : j < (m.getD i []).length) :
    entry2 (setEntry m i j v) i j d = v := by
  unfold entry2 setEntry
  rw [getD_set_self _ _ _ _ hi]
  exact getD_set_self _ _ _ _ hj

theorem setEntry_entry_other (m : List (List α)) (i j i' j' : ℕ) (v d : α)
    (h : ¬(i' = i ∧ j' = j)) :
    entry2 (setEntry m i j v) i' j' d = entry2 m i' j' d := by
  unfold entry2 setEntry
  by_cases hii : i' = i
  · subst hii
    have hjj : j' ≠ j := fun e => h ⟨rfl, e⟩
    by_cases hlen : i' < m.length
    · rw [getD_set_self _ _ _ _ hlen]
      exact getD_set_other _ _ _ _ _ (fun e => hjj e.symm)
    · rw [set_oob _ _ _ (Nat.le_of_not_lt hlen)]
  · rw [getD_set_other _ _ _ _ _ (fun e => hii e.symm)]

/-- C9 (amended): `setPrescribedValue_` does NOT invalidate the cached
numbering — the cache and count survive the mutation untouched, so later
`eqnum`/`neqns` reads keep returning the stale cached values computed from
the prescribed table as it was before the mutation. -/
theorem setPrescribed_keeps_stale_cache (f f' : FeField) (i dir : ℕ) (v : ℚ)
    (E : List (List ℤ))
    (hset : f.setPrescribedValue_ i dir v = some f')
    (hE : f.eqnums = some E) :
    f'.eqnums = some E ∧ f'.neqns = f.neqns ∧
    (∀ i' j', i' < f'.nfens → j' < f'.dim →
      (f'.eqnumRead i' j').2 =
        Except.ok (entry2 E i' j' FeField.INVALID_EQUATION_NUM)) ∧
    f'.neqnsRead.2 = f.neqns := by
  unfold FeField.setPrescribedValue_ at hset
  rcases hp : f.prescribed with _ | p <;> rw [hp] at hset
  · simp at hset
  · rcases hpv : f.prescribedValues with _ | pv <;> rw [hpv] at hset
    · simp at hset
    · have hf' : f' = { f with
          prescribed := some (setEntry p i dir true),
          prescribedValues := some (setEntry pv i dir v),
          values := setEntry f.values i dir v } := (Option.some.inj hset).symm
      subst hf'
      have heq : ({ f with
          prescribed := some (setEntry p i dir true),
          prescribedValues := some (setEntry pv i dir v),
          values := setEntry f.values i dir v } : FeField).eqnums = some E := hE
      have hEn : ({ f with
          prescribed := some (setEntry p i dir true),
          prescribedValues := some (setEntry pv i dir v),
          values := setEntry f.values i dir v } : FeField).ensureNumbered =
          { f with
            prescribed := some (setEntry p i dir true),
            prescribedValues := some (setEntry pv i dir v),
            values := setEntry f.values i dir v } := by
        unfold FeField.ensureNumbered
        rw [heq]
        rfl
      refine ⟨hE, rfl, ?_, ?_⟩
      · intro i' j' hi' hj'
        unfold FeField.eqnumRead
        rw [hEn, if_neg (by omega), if_neg (by omega), heq]
        rfl
      · unfold FeField.neqnsRead
        rw [hEn]

/-- Counterexample to C9 as stated: number `tinyField` (cache `[[0, 1]]`,
`neqns = 2`), then prescribe `(0, 0) := 5`.  The cache is not invalidated:
`eqnum(0,0)` still reads the stale `0` and `neqns()` the stale `2`, while
recomputing the numbering from the new prescribed table yields `[[-1, 0]]`
and `neqns = 1`. -/
theorem cache_not_invalidated_cex :
    (tinyField.eqnumRead 0 0).1.setPrescribedValue_ 0 0 5 = some tinyFieldMut ∧
    tinyFieldMut.isPrescribed 0 0 = true ∧
    (tinyFieldMut.eqnumRead 0 0).2 = Except.ok 0 ∧
    tinyFieldMut.neqnsRead.2 = 2 ∧
    tinyFieldMut.numberEqnums_.eqnums = some [[-1, 0]] ∧
    tinyFieldMut.numberEqnums_.neqns = 1 ∧
    (0 : ℤ) ≠ (-1 : ℤ) ∧ (2 : ℤ) ≠ (1 : ℤ) :=
  ⟨by decide, by decide, rfl, rfl, by decide, by decide, by decide, by decide⟩

/-- Witness for C9 (amended) at the numbered `tinyField` mutated at
`(0, 0)`. -/
theorem setPrescribed_keeps_stale_cache_witness :
    (tinyField.numberEqnums_.setPrescribedValue_ 0 0 5 = some tinyFieldMut ∧
      tinyField.numberEqnums_.eqnums = some [[0, 1]]) ∧
    (tinyFieldMut.eqnums = some [[0, 1]] ∧
      tinyFieldMut.neqns = tinyField.numberEqnums_.neqns ∧
      (∀ i' j', i' < tinyFieldMut.nfens → j' < tinyFieldMut.dim →
        (tinyFieldMut.eqnumRead i' j').2 =
          Except.ok (entry2 [[0, 1]] i' j' FeField.INVALID_EQUATION_NUM)) ∧
      tinyFieldMut.neqnsRead.2 = tinyField.numberEqnums_.neqns) :=
  ⟨⟨by decide, by decide⟩,
    setPrescribed_keeps_stale_cache tinyField.numberEqnums_ tinyFieldMut 0 0 5
      [[0, 1]] (by decide) (by decide)⟩

/-- C10: on a field with prescribed tables, `setPrescribedValue_(i, dir, v)`
marks `(i, dir)` prescribed, records `v` in the prescribed-value table and
overwrites the current value at `(i, dir)` with `v`, while every other
entry of the values, prescribed and prescribed-value tables is left
unchanged. -/
theorem setPrescribedValue_frame (f : FeField) (index dir : ℕ) (v : ℚ)
    (p : List (List Bool)) (pv : List (List ℚ))
    (hp : f.prescribed = some p) (hpv : f.prescribedValues = some pv)
    (hip : index < p.length) (hjp : dir < (p.getD index []).length)
    (hipv : index < pv.length) (hjpv : dir < (pv.getD index []).length)
    (hiv : index < f.values.length) (hjv : dir < (f.values.getD index []).length) :
    ∃ f', f.setPrescribedValue_ index dir v = some f' ∧
      f'.isPrescribed index dir = true ∧
      entry2 (f'.prescribedValues.getD []) index dir 0 = v ∧
      entry2 f'.values index dir 0 = v ∧
      (∀ i j, ¬(i = index ∧ j = dir) →
        f'.isPrescribed i j = f.isPrescribed i j ∧
        entry2 (f'.prescribedValues.getD []) i j 0 =
          entry2 (f.prescribedValues.getD []) i j 0 ∧
        entry2 f'.values i j 0 = entry2 f.values i j 0) := by
  have hset : f.setPrescribedValue_ index dir v = some
      { f with
        prescribed := some (setEntry p index dir true),
        prescribedValues := some (setEntry pv index dir v),
        values := setEntry f.values index dir v } := by
    unfold FeField.setPrescribedValue_
    rw [hp, hpv]
  refine ⟨_, hset, ?_, ?_, ?_, ?_⟩
  · show entry2 (setEntry p index dir true) index dir false = true
    exact setEntry_entry_self _ _ _ _ _ hip hjp
  · show entry2 (setEntry pv index dir v) index dir 0 = v
    exact setEntry_entry_self _ _ _ _ _ hipv hjpv
  · exact setEntry_entry_self _ _ _ _ _ hiv hjv
  · intro i j hne
    refine ⟨?_, ?_, ?_⟩
    · show entry2 (setEntry p index dir true) i j false = _
      rw [setEntry_entry_other _ _ _ _ _ _ _ hne, FeField.isPrescribed, hp]
      rfl
    · show entry2 (setEntry pv index dir v) i j 0 = _
      rw [setEntry_entry_other _ _ _ _ _ _ _ hne, hpv]
      rfl
    · exact setEntry_entry_other _ _ _ _ _ _ _ hne

/-- Witness for C10 at `tinyField`, prescribing `(0, 1) := 7`. -/
theorem setPrescribedValue_frame_witness :
    (tinyField.prescribed = some [[false, false]] ∧
      tinyField.prescribedValues = some [[0, 0]] ∧
      0 < ([[false, false]] : List (List Bool)).length ∧
      1 < (([[false, false]] : List (List Bool)).getD 0 []).length ∧
      0 < ([[0, 0]] : List (List ℚ)).length ∧
      1 < (([[0, 0]] : List (List ℚ)).getD 0 []).length ∧
      0 < tinyField.values.length ∧
      1 < (tinyField.values.getD 0 []).length) ∧
    (∃ f', tinyField.setPrescribedValue_ 0 1 7 = some f' ∧
      f'.isPrescribed 0 1 = true ∧
      entry2 (f'.prescribedValues.getD []) 0 1 0 = 7 ∧
      entry2 f'.values 0 1 0 = 7 ∧
      (∀ i j, ¬(i = 0 ∧ j = 1) →
        f'.isPrescribed i j = tinyField.isPrescribed i j ∧
        entry2 (f'.prescribedValues.getD []) i j 0 =
          entry2 (tinyField.prescribedValues.getD []) i j 0 ∧
        entry2 f'.values i j 0 = entry2 tinyField.values i j 0)) :=
  ⟨⟨rfl, rfl, by decide, by decide, by decide, by decide, by decide, by decide⟩,
    setPrescribedValue_frame tinyField 0 1 7 [[false, false]] [[0, 0]] rfl rfl
      (by decide) (by decide) (by decide) (by decide) (by decide) (by decide)⟩
